import Mathlib

/-!
Verification of the Financial Fact Normalization Engine
(`src/from_pdf_to_figure_prototype/v4.py`) against its specification.

The Python source is shallowly embedded below.  Conventions:
* Python `str` is `String` (processed as `List Char`); the inputs exercised
  by the claims are ASCII plus the currency symbols, dashes and thin/no-break
  spaces that the source handles explicitly, and the character-class
  functions mirror Python's behaviour on that character range.
* Python `float` is modelled by `ℚ`; every numeric value reachable in the
  claims is a small decimal, on which IEEE double arithmetic is exact.
* A pandas `DataFrame` grid (as produced by camelot: a rectangular table of
  strings) is `List (List String)`; `df.iat[i, j]` is positional access, and
  the column-label renaming done by `parse_table` is irrelevant to row data,
  so it is not modelled.  `df.size` is `nrows * ncols`.
* SQLite's `financial_facts` relation is `List Fact` (ignoring the
  auto-increment `id` and `created_at`, which are not part of fact identity
  or content); `INSERT OR REPLACE` against the unique index `u_facts` is
  `upsert` below, with SQLite's semantics that NULLs in a unique index are
  distinct from each other.
-/

namespace PdfToFigures

/-! ### Character classes (ASCII scope of Python `\s`, `\w`, `str.isdigit`) -/

def isWs (c : Char) : Bool :=
  c = ' ' || c = '\t' || c = '\n' || c = '\x0d' || c = '\x0b' || c = '\x0c'

def isWordChar (c : Char) : Bool :=
  c.isAlphanum || c = '_'

def isParen (c : Char) : Bool :=
  c = '(' || c = ')'

def isQuoteCh (c : Char) : Bool :=
  c = '\'' || c = '’'

/-! ### `normalize_text` (v4.py lines 110-118)

`s.replace(" "," ").replace("\xa0"," ").replace(" "," ")`,
`s.replace("’","'")`, then `re.sub(r"\s+", " ", s).strip()`. -/

def replaceSp (c : Char) : Char :=
  if c = ' ' || c = ' ' || c = ' ' then ' '
  else if c = '’' then '\'' else c

/-- `re.sub(r"\s+", " ", s)`: each maximal run of whitespace becomes one space.
The flag records whether we are inside a whitespace run. -/
def collapseAux : Bool → List Char → List Char
  | _, [] => []
  | inRun, c :: cs =>
    if isWs c then
      if inRun then collapseAux true cs else ' ' :: collapseAux true cs
    else c :: collapseAux false cs

def collapseWs (cs : List Char) : List Char :=
  collapseAux false cs

/-- Python `str.strip()` (whitespace at both ends). -/
def stripWs (cs : List Char) : List Char :=
  ((cs.dropWhile isWs).reverse.dropWhile isWs).reverse

def normalizeChars (cs : List Char) : List Char :=
  stripWs (collapseWs (cs.map replaceSp))

def normalize_text (s : String) : String :=
  ⟨normalizeChars s.data⟩

/-- `normalize_text(str(x)).lower()`, used for metric labels. -/
def norm_lower (s : String) : String :=
  ⟨(normalizeChars s.data).map Char.toLower⟩

/-! ### `clean_numeric` (v4.py lines 258-275) -/

/-- Characters kept by `re.sub(r"[^\d,.-]", "", s)`. -/
def keepNum (c : Char) : Bool :=
  c.isDigit || c = ',' || c = '.' || c = '-'

/-- Python `s.strip("()")`. -/
def stripParens (cs : List Char) : List Char :=
  ((cs.dropWhile isParen).reverse.dropWhile isParen).reverse

/-- Drop every `'.'` except the last one: keeps the first dot of the
reversed list.  Mirrors `"".join(parts[:-1]) + "." + parts[-1]`. -/
def keepLastDotAux : Bool → List Char → List Char
  | _, [] => []
  | seen, c :: cs =>
    if c = '.' then
      if seen then keepLastDotAux seen cs else '.' :: keepLastDotAux true cs
    else c :: keepLastDotAux seen cs

/-- `if s.count(".") > 1: s = "".join(parts[:-1]) + "." + parts[-1]`. -/
def fixDots (cs : List Char) : List Char :=
  if cs.count '.' > 1 then (keepLastDotAux false cs.reverse).reverse else cs

def digitsToNat (ds : List Char) : Nat :=
  ds.foldl (fun n c => 10 * n + (c.toNat - '0'.toNat)) 0

/-- Python `float(s)` restricted to the strings reachable here (digits,
at most one `'.'`, `'-'` anywhere; no exponent/inf/nan survive the
character filter): optional leading sign, then digits with an optional
single decimal point and at least one digit; anything else raises
`ValueError`, modelled as `none`. -/
def pyFloat (cs : List Char) : Option ℚ :=
  let (sgn, body) : ℚ × List Char :=
    match cs with
    | '-' :: rest => (-1, rest)
    | '+' :: rest => (1, rest)
    | _ => (1, cs)
  let intPart := body.takeWhile Char.isDigit
  let rest := body.dropWhile Char.isDigit
  match rest with
  | [] => if intPart = [] then none else some (sgn * (digitsToNat intPart : ℚ))
  | '.' :: frac =>
    if frac.all Char.isDigit ∧ (intPart ≠ [] ∨ frac ≠ []) then
      some (sgn * ((digitsToNat intPart : ℚ) +
        (digitsToNat frac : ℚ) / ((10 : ℚ) ^ frac.length)))
    else none
  | _ => none

/-- The sign-free tail of `clean_numeric`: character filter, dot fixing,
comma removal (`s.replace(",", "")`), `float(s)`. -/
def numericCore (s1 : List Char) : Option ℚ :=
  pyFloat ((fixDots (s1.filter keepNum)).filter (fun c => c != ','))

def clean_numeric (raw : String) : Option ℚ :=
  let s := normalizeChars raw.data
  if s = [] ∨ s = ['-'] ∨ s = ['–'] ∨ s = ['—'] then none
  else
    let neg := (s.head? == some '(') && (s.getLast? == some ')')
    match numericCore (stripParens s) with
    | some v => some (if neg then -v else v)
    | none => none

/-! ### `numeric_density` (v4.py lines 278-286) -/

def cellHasDigit (cell : String) : Bool :=
  cell.data.any Char.isDigit

/-- Fraction of cells containing at least one digit.  The grid is
rectangular (pandas), so `df.size = nrows * ncols`. -/
def numeric_density (rows : List (List String)) : ℚ :=
  let ncols := (rows.head?.getD []).length
  let size := rows.length * ncols
  if size = 0 then 0
  else
    let cnt := (rows.map (fun row => row.countP cellHasDigit)).sum
    (cnt : ℚ) / (size : ℚ)

/-! ### Regex scanning primitives

Python `re.search` semantics: try each start position left to right; at a
given position, alternatives are tried in pattern order (with backtracking
into a following `\b` test).  Matching is case-insensitive (`re.I`) where
the source passes that flag; this is modelled by comparing
`Char.toLower` images (ASCII). -/

/-- Case-insensitive literal prefix match; returns the rest of the input. -/
def matchLitCI : List Char → List Char → Option (List Char)
  | [], cs => some cs
  | _, [] => none
  | p :: ps, c :: cs => if p.toLower = c.toLower then matchLitCI ps cs else none

/-- `\b` right after a word character: next char absent or non-word. -/
def boundaryAfter : List Char → Bool
  | [] => true
  | c :: _ => !(isWordChar c)

/-- `(a1|a2|...)\b` at the current position: alternatives in order, each
followed by a word-boundary test (with backtracking to the next
alternative on failure).  Returns the alternative that matched. -/
def firstAltBnd (alts : List String) (cs : List Char) : Option String :=
  alts.findSome? fun alt =>
    match matchLitCI alt.data cs with
    | some rest => if boundaryAfter rest then some alt else none
    | none => none

/-! ### Word-sequence patterns (section labels, currency words)

All `SECTION_PATTERNS` and `CURRENCY_WORDS` regexes have the shape
`\b w1 \s+ w2 \s+ ... wn \b` where the last word may be an alternation;
`(consolidated\s+)?balance\s+sheet` is equi-satisfiable with
`balance\s+sheet` under `re.search` and is embedded as such. -/

/-- Match `w1\s+w2\s+...\s+wn\b` at the current position; each word slot is
an ordered list of alternatives. -/
def matchSeqAt : List (List String) → List Char → Bool
  | [], _ => true
  | [w], cs => (firstAltBnd w cs).isSome
  | w :: ws, cs =>
    w.any fun alt =>
      match matchLitCI alt.data cs with
      | some rest =>
        let sp := rest.takeWhile isWs
        let rest' := rest.dropWhile isWs
        !sp.isEmpty && matchSeqAt ws rest'
      | none => false

/-- `re.search` for a `\b`-anchored word sequence: scan positions, tracking
whether the previous character was a word character (for the leading `\b`). -/
def searchSeqFrom (ws : List (List String)) : Bool → List Char → Bool
  | _, [] => false
  | prevW, c :: cs =>
    (!prevW && matchSeqAt ws (c :: cs)) || searchSeqFrom ws (isWordChar c) cs

def searchSeq (ws : List (List String)) (cs : List Char) : Bool :=
  searchSeqFrom ws false cs

/-! ### `detect_section_label` (v4.py lines 60-82, 151-157) -/

def SECTION_PATTERNS : List (String × List (List (List String))) :=
  [("income_statement",
    [[["consolidated"], ["statement"], ["of"], ["profit", "loss", "income"]],
     [["statement"], ["of"], ["operations"]],
     [["profit"], ["or"], ["loss"]],
     [["income"], ["statement"]]]),
   ("balance_sheet",
    [[["consolidated"], ["statement"], ["of"], ["financial"], ["position"]],
     [["balance"], ["sheet"]],
     [["statement"], ["of"], ["financial"], ["position"]]]),
   ("cash_flow",
    [[["consolidated"], ["statement"], ["of"], ["cash"], ["flows", "flow"]],
     [["cash"], ["flow"], ["statement"]]]),
   ("kpi",
    [[["key"], ["metrics", "metric"]],
     [["key"], ["performance"], ["indicators", "indicator"]],
     [["highlights", "highlight"]],
     [["financial"], ["summary"]]])]

def detect_section_label (text : String) : Option String :=
  let t := text.data.map Char.toLower
  SECTION_PATTERNS.findSome? fun lp =>
    if lp.2.any (fun pat => searchSeq pat t) then some lp.1 else none

/-! ### `detect_currency_and_scale` (v4.py lines 84-104, 160-212) -/

def contains_currency_symbol (cs : List Char) : Bool :=
  cs.any fun c => c = '€' || c = '$' || c = '£' || c = '¥'

def symCode (c : Char) : Option String :=
  if c = '€' then some "EUR"
  else if c = '$' then some "USD"
  else if c = '£' then some "GBP"
  else if c = '¥' then some "JPY"
  else none

/-- `re.search(r"([€$£¥])\s*(m|mn|bn|k|b)\b", text, re.I)`: returns the
matched symbol and scale word. -/
def searchM2 : List Char → Option (Char × String)
  | [] => none
  | c :: cs =>
    if c = '€' || c = '$' || c = '£' || c = '¥' then
      match firstAltBnd ["m", "mn", "bn", "k", "b"] (cs.dropWhile isWs) with
      | some w => some (c, w)
      | none => searchM2 cs
    else searchM2 cs

/-- One position of
`re.search(r"\b(EUR|USD|GBP|JPY)\b\s*(million|...|k)\b", text, re.I)`:
code, `\b`, optional whitespace, scale word, `\b`. -/
def matchM3At (cs : List Char) : Option (String × String) :=
  (["EUR", "USD", "GBP", "JPY"].findSome? fun code =>
    match matchLitCI code.data cs with
    | some rest =>
      if boundaryAfter rest then
        match firstAltBnd
            ["million", "millions", "mn", "m", "billion", "billions", "bn",
             "b", "thousand", "thousands", "k"] (rest.dropWhile isWs) with
        | some w => some (code, w)
        | none => none
      else none
    | none => none)

def searchM3From : Bool → List Char → Option (String × String)
  | _, [] => none
  | prevW, c :: cs =>
    match if !prevW then matchM3At (c :: cs) else none with
    | some r => some r
    | none => searchM3From (isWordChar c) cs

def searchM3 (cs : List Char) : Option (String × String) :=
  searchM3From false cs

/-- `re.search(r"['’]m\b", text, re.I)`. -/
def searchQuoteM : List Char → Bool
  | [] => false
  | c :: cs =>
    (isQuoteCh c &&
      (match cs with
       | m :: rest => (m.toLower = 'm') && boundaryAfter rest
       | [] => false)) || searchQuoteM cs

/-- The `SCALE_KEYWORDS` loop (v4.py lines 100-104, 198-201):
`re.fullmatch(r"\b(grp)\b", word)` on a bare scale word is membership in
the group; groups are tried in table order. -/
def kwLookup (w : String) : Option (String × ℚ) :=
  if w ∈ ["thousands", "thousand", "000s", "k"] then some ("×1k", 1000)
  else if w ∈ ["million", "millions", "mn", "m"] then some ("×1m", 1000000)
  else if w ∈ ["billion", "billions", "bn", "b"] then some ("×1b", 1000000000)
  else none

/-- The `m2` branch's `if word in ("m","mn") ... elif ... elif word == "k"`. -/
def m2map (w : String) : Option String × ℚ :=
  if w = "m" ∨ w = "mn" then (some "×1m", 1000000)
  else if w = "bn" ∨ w = "b" then (some "×1b", 1000000000)
  else if w = "k" then (some "×1k", 1000)
  else (none, 1)

/-- The `m3` branch's direct-map `elif` chain (only reached when the
keyword table missed and `unit_raw` is still `None`); when no arm fires,
`unit_raw`/`scale` keep their previous values. -/
def m3directMap (w : String) (prev : Option String × ℚ) : Option String × ℚ :=
  if w = "million" ∨ w = "millions" ∨ w = "mn" ∨ w = "m" then
    (some "×1m", 1000000)
  else if w = "billion" ∨ w = "billions" ∨ w = "bn" ∨ w = "b" then
    (some "×1b", 1000000000)
  else if w = "thousand" ∨ w = "thousands" ∨ w = "k" then (some "×1k", 1000)
  else prev

/-- The `(unit_raw, scale)` result of `detect_currency_and_scale`; the
currency result is computed separately below (the two dataflows are
independent in the source). -/
def detectUnitScale (cs : List Char) : Option String × ℚ :=
  let p2 : Option String × ℚ :=
    match searchM2 cs with
    | some (_, w) => m2map w
    | none => (none, 1)
  let p3 : Option String × ℚ :=
    match searchM3 cs with
    | some (_, w) =>
      match kwLookup w with
      | some (u, sc) => (some u, sc)
      | none =>
        match p2.1 with
        | none => m3directMap w p2
        | some u => (some u, p2.2)
    | none => p2
  if contains_currency_symbol cs && searchQuoteM cs then (some "×1m", 1000000)
  else p3

/-- One position of `re.search(r"\bUS\s*DOLLAR(S)?\b", text, re.I)`:
note `\s*` — no whitespace is required between `US` and `DOLLAR`, and
there is no inner `\b`. -/
def matchUSDollarAt (cs : List Char) : Bool :=
  match matchLitCI ['u', 's'] cs with
  | some rest => (firstAltBnd ["dollars", "dollar"] (rest.dropWhile isWs)).isSome
  | none => false

def searchUSDollarFrom : Bool → List Char → Bool
  | _, [] => false
  | prevW, c :: cs =>
    (!prevW && matchUSDollarAt (c :: cs)) || searchUSDollarFrom (isWordChar c) cs

def searchUSDollar (cs : List Char) : Bool :=
  searchUSDollarFrom false cs

/-- The currency result of `detect_currency_and_scale`: symbol table in
order, else the `CURRENCY_WORDS` dict in insertion order, then the `m2`
compact pattern (only if still unset), then the `m3` word pattern
(always overrides on match). -/
def detectCurrency (cs : List Char) : Option String :=
  let c0 : Option String :=
    if '€' ∈ cs then some "EUR"
    else if '$' ∈ cs then some "USD"
    else if '£' ∈ cs then some "GBP"
    else if '¥' ∈ cs then some "JPY"
    else
      if searchSeq [["eur"]] cs then some "EUR"
      else if searchSeq [["euros", "euro"]] cs then some "EUR"
      else if searchSeq [["usd"]] cs then some "USD"
      else if searchUSDollar cs then some "USD"
      else if searchSeq [["gbp"]] cs then some "GBP"
      else if searchSeq [["pounds", "pound"]] cs then some "GBP"
      else none
  let c1 : Option String :=
    match c0 with
    | some c => some c
    | none =>
      match searchM2 cs with
      | some (sym, _) => symCode sym
      | none => none
  match searchM3 cs with
  | some (code, _) => some code
  | none => c1

def detect_currency_and_scale (text : String) :
    Option String × Option String × ℚ :=
  let cs := text.data
  let us := detectUnitScale cs
  (detectCurrency cs, us.1, us.2)

/-! ### `looks_like_year` and `find_year_header_map` (v4.py lines 217-255) -/

def MIN_YEAR : Nat := 1995
def MAX_YEAR : Nat := 2036

def yearInRange (y : Nat) : Option Nat :=
  if MIN_YEAR ≤ y ∧ y ≤ MAX_YEAR then some y else none

/-- Python `tok.strip("'’")` (after `strip()`). -/
def stripQuotes (cs : List Char) : List Char :=
  ((cs.dropWhile isQuoteCh).reverse.dropWhile isQuoteCh).reverse

/-- `re.fullmatch(r"(19|20)\d{2}", tok)`: value of the 4-digit year. -/
def fullYear4 : List Char → Option Nat
  | [a, b, c, d] =>
    if ((a = '1' && b = '9') || (a = '2' && b = '0')) && c.isDigit && d.isDigit
    then some (digitsToNat [a, b, c, d]) else none
  | _ => none

/-- One position of `re.search(r"FY\s*(\d{2})\s*/\s*(\d{2})", tok, re.I)`;
returns `2000 + bb` (`int("20" + m.group(2))`). -/
def matchFYAt : List Char → Option Nat
  | 'f' :: y :: rest | 'F' :: y :: rest =>
    if y.toLower = 'y' then
      match (rest.dropWhile isWs) with
      | d1 :: d2 :: rest2 =>
        if d1.isDigit && d2.isDigit then
          match rest2.dropWhile isWs with
          | '/' :: rest3 =>
            match rest3.dropWhile isWs with
            | e1 :: e2 :: _ =>
              if e1.isDigit && e2.isDigit then
                some (2000 + digitsToNat [e1, e2])
              else none
            | _ => none
          | _ => none
        else none
      | _ => none
    else none
  | _ => none

def searchFY : List Char → Option Nat
  | [] => none
  | c :: cs =>
    match matchFYAt (c :: cs) with
    | some y => some y
    | none => searchFY cs

/-- One position of `re.search(r"\b(19|20)\d{2}\b", s)` (leading `\b`
checked by the caller). -/
def matchBareYearAt : List Char → Option Nat
  | a :: b :: c :: d :: rest =>
    if ((a = '1' && b = '9') || (a = '2' && b = '0')) && c.isDigit &&
        d.isDigit && boundaryAfter rest then
      some (digitsToNat [a, b, c, d])
    else none
  | _ => none

def firstBareYearFrom : Bool → List Char → Option Nat
  | _, [] => none
  | prevW, c :: cs =>
    match if !prevW then matchBareYearAt (c :: cs) else none with
    | some y => some y
    | none => firstBareYearFrom (isWordChar c) cs

/-- First match of `\b(19|20)\d{2}\b` (its value, before any range check). -/
def firstBareYear (cs : List Char) : Option Nat :=
  firstBareYearFrom false cs

def looks_like_year (token : String) : Option Nat :=
  let tok := stripQuotes (stripWs token.data)
  match fullYear4 tok with
  | some y => yearInRange y
  | none =>
    match searchFY tok with
    | some y => yearInRange y
    | none =>
      match firstBareYear tok with
      | some y => yearInRange y
      | none => none

/-- Token characters of `re.split(r"[^\w'\-]+", cell)`. -/
def tokChar (c : Char) : Bool :=
  isWordChar c || c = '\'' || c = '-'

def consHead (c : Char) : List (List Char) → List (List Char)
  | t :: ts => (c :: t) :: ts
  | [] => [[c]]

/-- Split at every single non-token character. -/
def singleSplit : List Char → List (List Char)
  | [] => [[]]
  | c :: cs =>
    if tokChar c then consHead c (singleSplit cs) else [] :: singleSplit cs

/-- Collapse empty pieces between consecutive separators (but keep a
leading/trailing empty piece), matching `re.split` on a `+` pattern. -/
def dropInteriorEmpties : List (List Char) → List (List Char)
  | [] => []
  | [x] => [x]
  | x :: xs => if x = [] then dropInteriorEmpties xs else x :: dropInteriorEmpties xs

/-- `re.split(r"[^\w'\-]+", cell)`. -/
def splitTokens (cell : String) : List String :=
  match singleSplit cell.data with
  | [] => []
  | x :: xs => (x :: dropInteriorEmpties xs).map fun t => ⟨t⟩

/-- Per-cell year: normalize, tokenize, first token with a (truthy) year. -/
def cellYear (cell : String) : Option Nat :=
  (splitTokens (normalize_text cell)).findSome? looks_like_year

def rowYearMap (ncols : Nat) (row : List String) : List (Nat × Nat) :=
  (List.range ncols).filterMap fun j =>
    (cellYear (row.getD j "")).map fun y => (j, y)

def findYearHeaderFrom (ncols : Nat) : Nat → List (List String) →
    Option (Nat × List (Nat × Nat))
  | _, [] => none
  | i, row :: rest =>
    let years := rowYearMap ncols row
    if 2 ≤ years.length then some (i, years)
    else findYearHeaderFrom ncols (i + 1) rest

/-- `find_year_header_map`: first row whose cells yield ≥ 2 column→year
mappings (the source's `len(years) >= 2`). -/
def find_year_header_map (rows : List (List String)) :
    Option (Nat × List (Nat × Nat)) :=
  findYearHeaderFrom (rows.head?.getD []).length 0 rows

/-! ### The fact relation and `insert_fact` (v4.py lines 290-341) -/

structure Fact where
  company : String
  fiscal_year : Option Nat
  section_label : Option String
  metric : String
  value : ℚ
  currency : Option String
  unit_raw : Option String
  scale_applied : ℚ
  source_page : Nat
  source_type : String
  confidence : ℚ
deriving DecidableEq, Repr

/-- Equality of two values of a unique-index column under SQLite semantics:
a NULL is distinct from everything, including another NULL. -/
def optKeyEq {α : Type} [DecidableEq α] : Option α → Option α → Bool
  | some x, some y => x = y
  | _, _ => false

/-- Two rows collide on the unique index
`u_facts(company, fiscal_year, section, metric, source_page, source_type)`. -/
def factKeyConflict (a b : Fact) : Bool :=
  a.company = b.company && optKeyEq a.fiscal_year b.fiscal_year &&
  optKeyEq a.section_label b.section_label && a.metric = b.metric &&
  a.source_page = b.source_page && a.source_type = b.source_type

/-- `INSERT OR REPLACE INTO financial_facts ...`: delete the rows that would
violate the unique index, then append the new row. -/
def upsert (store : List Fact) (f : Fact) : List Fact :=
  store.filter (fun r => !(factKeyConflict r f)) ++ [f]

/-! ### `parse_table` (v4.py lines 345-416)

The function's DB side effects (`insert_fact` calls on the cursor) are
modelled as the returned list of facts, in call order. -/

/-- Python `or` on two optional strings (`""` is falsy). -/
def pyOrS (a b : Option String) : Option String :=
  match a with
  | some s => if s = "" then b else some s
  | none => b

/-- Python `or` on two floats (`0.0` is falsy). -/
def pyOrQ (a b : ℚ) : ℚ :=
  if a = 0 then b else a

/-- The multi-year path: rows strictly below the header; column 0 is the
metric label; each mapped `(column, year)` cell that parses yields a fact. -/
def multiYearFacts (data : List (List String)) (col2year : List (Nat × Nat))
    (ncols : Nat) (company : String) (sectionv : Option String)
    (currency unit_raw : Option String) (scale_applied : ℚ) (page_no : Nat)
    (source_type : String) : List Fact :=
  data.flatMap fun row =>
    let metric := norm_lower (row.getD 0 "")
    if metric = "" ∨ metric = "-" ∨ metric = "—" then []
    else
      col2year.filterMap fun jy =>
        if jy.1 ≥ ncols then none
        else
          (clean_numeric (row.getD jy.1 "")).map fun v =>
            { company := company, fiscal_year := some jy.2,
              section_label := sectionv, metric := metric,
              value := v * scale_applied, currency := currency,
              unit_raw := unit_raw, scale_applied := scale_applied,
              source_page := page_no, source_type := source_type,
              confidence := 1 }

/-- The fallback single-value path: every row; first parseable value among
columns `1..ncols-1`; `fy` is the page-level fallback year (constant
across rows in the source). -/
def fallbackFacts (rows : List (List String)) (ncols : Nat) (company : String)
    (fy : Option Nat) (sectionv : Option String)
    (currency unit_raw : Option String) (scale_applied : ℚ) (page_no : Nat)
    (source_type : String) : List Fact :=
  rows.flatMap fun row =>
    let metric := norm_lower (row.getD 0 "")
    if metric = "" then []
    else
      match (List.range' 1 (ncols - 1)).findSome?
          (fun j => clean_numeric (row.getD j "")) with
      | none => []
      | some v =>
        [{ company := company, fiscal_year := fy, section_label := sectionv,
           metric := metric, value := v * scale_applied, currency := currency,
           unit_raw := unit_raw, scale_applied := scale_applied,
           source_page := page_no, source_type := source_type,
           confidence := 1 }]

def parse_table (rows : List (List String)) (company : String)
    (default_year : Option Nat) (page_no : Nat) (page_text : String)
    (source_type : String) (section_hint : Option String) : List Fact :=
  let pcs := detect_currency_and_scale page_text
  let currency_p := pcs.1
  let unit_p := pcs.2.1
  let scale_p := pcs.2.2
  let ncols := (rows.head?.getD []).length
  let hdr := find_year_header_map rows
  let dens := numeric_density rows
  if hdr = none ∧ dens < 12 / 100 then []
  else
    let sectionv := pyOrS section_hint (detect_section_label page_text)
    let head_text :=
      String.intercalate " " ((rows.take 3).map (String.intercalate " " ·))
    let tcs := detect_currency_and_scale head_text
    let currency := pyOrS tcs.1 currency_p
    let unit_raw := pyOrS tcs.2.1 unit_p
    let scale_applied := pyOrQ tcs.2.2 (pyOrQ scale_p 1)
    match hdr with
    | some (header_idx, col2year) =>
      if 2 ≤ col2year.length then
        multiYearFacts (rows.drop (header_idx + 1)) col2year ncols company
          sectionv currency unit_raw scale_applied page_no source_type
      else
        let fy : Option Nat :=
          match default_year with
          | some y => some y
          | none =>
            match firstBareYear page_text.data with
            | some y => if MIN_YEAR ≤ y ∧ y ≤ MAX_YEAR then some y else none
            | none => none
        fallbackFacts rows ncols company fy sectionv currency unit_raw
          scale_applied page_no source_type
    | none =>
      let fy : Option Nat :=
        match default_year with
        | some y => some y
        | none =>
          match firstBareYear page_text.data with
          | some y => if MIN_YEAR ≤ y ∧ y ≤ MAX_YEAR then some y else none
          | none => none
      fallbackFacts rows ncols company fy sectionv currency unit_raw
        scale_applied page_no source_type

/-! ### Concrete inputs used by the claim theorems -/

/-- A fact with NULL `fiscal_year` and `section`, as the fallback path
produces on a page with no year evidence. -/
def c1nullFact : Fact :=
  ⟨"Acme", none, none, "revenue", 5, none, none, 1, 3, "camelot_text", 1⟩

/-- A fact with non-NULL identity-key fields. -/
def c1keyedFact : Fact :=
  ⟨"Acme", some 2024, some "kpi", "revenue", 1200, some "EUR", some "×1m",
   1000000, 3, "camelot_text", 1⟩

/-- The grid of the end-to-end scenario (§8 of the spec). -/
def c2grid : List (List String) :=
  [["", "2024", "2023"], ["Revenue", "1,200", "1,050"],
   ["Net profit", "(80)", "95"]]

def c2text : String := "Values in €m"

/-- A fallback-path grid whose first rows carry no currency/scale cue. -/
def c3grid : List (List String) := [["Revenue", "1,200"]]

def c5grid : List (List String) := [["Revenue", "1,200"]]

def c5wGrid : List (List String) := [["Costs", "300"]]

def c5wFact : Fact :=
  ⟨"Acme", none, none, "costs", 300, none, none, 1, 1, "camelot_text", 1⟩

def c10grid : List (List String) := [["Costs", "42"]]

def c10fact : Fact :=
  ⟨"Acme", none, none, "costs", 42, none, none, 1, 7, "camelot_text", 1⟩

/-- The scale multipliers that `detect_currency_and_scale` can produce. -/
def scaleOk (q : ℚ) : Prop :=
  q = 1 ∨ q = 1000 ∨ q = 1000000 ∨ q = 1000000000

/-- Modelled from the spec's words for C8 ("all characters other than
digits, comma, period, and leading minus are discarded"): keep digits,
commas and periods everywhere but a minus sign only in the leading
position.  A second definition for comparison with the source's filter
`re.sub(r"[^\d,.-]", "", s)`, which keeps a minus sign anywhere. -/
def specFilterLeadMinus : List Char → List Char
  | [] => []
  | c :: rest =>
    (if keepNum c then [c] else []) ++
      rest.filter (fun d => d.isDigit || d = ',' || d = '.')

/-- `clean_numeric` with the spec-worded filter substituted for the
source's filter (everything else identical). -/
def clean_numeric_specFilter (raw : String) : Option ℚ :=
  let s := normalizeChars raw.data
  if s = [] ∨ s = ['-'] ∨ s = ['–'] ∨ s = ['—'] then none
  else
    let neg := (s.head? == some '(') && (s.getLast? == some ')')
    match pyFloat ((fixDots (specFilterLeadMinus (stripParens s))).filter
        (fun c => c != ',')) with
    | some v => some (if neg then -v else v)
    | none => none

/-! ### Helper lemmas -/

theorem scaleOk_m2map (w : String) : scaleOk (m2map w).2 := by
  unfold m2map; split_ifs <;> simp [scaleOk]

theorem scaleOk_kwLookup {w : String} {u : String} {sc : ℚ}
    (h : kwLookup w = some (u, sc)) : scaleOk sc := by
  unfold kwLookup at h
  split_ifs at h <;> cases h <;> simp [scaleOk]

theorem scaleOk_m3directMap (w : String) (p : Option String × ℚ)
    (hp : scaleOk p.2) : scaleOk (m3directMap w p).2 := by
  unfold m3directMap
  split_ifs <;> first
  | exact hp
  | simp [scaleOk]

theorem scaleOk_detectUnitScale (cs : List Char) :
    scaleOk (detectUnitScale cs).2 := by
  unfold detectUnitScale
  by_cases hq : (contains_currency_symbol cs && searchQuoteM cs) = true
  · rw [if_pos hq]
    simp [scaleOk]
  · rw [if_neg hq]
    rcases h2 : searchM2 cs with - | ⟨sym, w2⟩
    · rcases h3 : searchM3 cs with - | ⟨code, w3⟩
      · simp only [h2, h3]
        simp [scaleOk]
      · simp only [h2, h3]
        rcases hk : kwLookup w3 with - | ⟨u, sc⟩
        · simp only [hk]
          exact scaleOk_m3directMap w3 _ (by simp [scaleOk])
        · simp only [hk]
          exact scaleOk_kwLookup hk
    · rcases h3 : searchM3 cs with - | ⟨code, w3⟩
      · simp only [h2, h3]
        exact scaleOk_m2map w2
      · simp only [h2, h3]
        rcases hk : kwLookup w3 with - | ⟨u, sc⟩
        · simp only [hk]
          rcases h1 : (m2map w2).1 with - | u
          · simp only [h1]
            exact scaleOk_m3directMap w3 _ (scaleOk_m2map w2)
          · simp only [h1]
            exact scaleOk_m2map w2
        · simp only [hk]
          exact scaleOk_kwLookup hk

theorem scaleOk_pyOrQ {a b : ℚ} (ha : scaleOk a) (hb : scaleOk b) :
    scaleOk (pyOrQ a b) := by
  unfold pyOrQ; split_ifs <;> assumption

theorem mem_multiYearFacts {data : List (List String)}
    {col2year : List (Nat × Nat)} {ncols : Nat} {company : String}
    {sectionv currency unit_raw : Option String} {sa : ℚ} {page : Nat}
    {st : String} {f : Fact}
    (hf : f ∈ multiYearFacts data col2year ncols company sectionv currency
      unit_raw sa page st) :
    f.scale_applied = sa ∧ f.confidence = 1 := by
  simp only [multiYearFacts, List.mem_flatMap] at hf
  obtain ⟨row, -, hf⟩ := hf
  split at hf
  · simp at hf
  · simp only [List.mem_filterMap] at hf
    obtain ⟨jy, -, hj⟩ := hf
    split at hj
    · simp at hj
    · obtain ⟨v, -, hv⟩ := Option.map_eq_some'.mp hj
      subst hv
      exact ⟨rfl, rfl⟩

theorem mem_fallbackFacts {rows : List (List String)} {ncols : Nat}
    {company : String} {fy : Option Nat}
    {sectionv currency unit_raw : Option String} {sa : ℚ} {page : Nat}
    {st : String} {f : Fact}
    (hf : f ∈ fallbackFacts rows ncols company fy sectionv currency unit_raw
      sa page st) :
    f.fiscal_year = fy ∧ f.scale_applied = sa ∧ f.confidence = 1 := by
  simp only [fallbackFacts, List.mem_flatMap] at hf
  obtain ⟨row, -, hf⟩ := hf
  split at hf
  · simp at hf
  · split at hf
    · simp at hf
    · simp only [List.mem_singleton] at hf
      subst hf
      exact ⟨rfl, rfl, rfl⟩

/-! ### Helper lemmas for the parenthesis-negation property (C7) -/

theorem dropWhile_of_forall_neg {p : Char → Bool} {l : List Char}
    (h : ∀ c ∈ l, p c = false) : l.dropWhile p = l := by
  cases l with
  | nil => rfl
  | cons a l => simp [List.dropWhile_cons, h a (List.mem_cons_self a l)]

theorem mem_of_mem_dropWhile {p : Char → Bool} {c : Char} :
    ∀ {l : List Char}, c ∈ l.dropWhile p → c ∈ l := by
  intro l
  induction l with
  | nil => simp
  | cons a l ih =>
    rw [List.dropWhile_cons]
    by_cases h : p a = true
    · rw [if_pos h]
      intro hc
      exact List.mem_cons_of_mem a (ih hc)
    · rw [if_neg h]
      exact id

theorem mem_of_mem_stripWs {c : Char} {l : List Char} (h : c ∈ stripWs l) :
    c ∈ l := by
  unfold stripWs at h
  rw [List.mem_reverse] at h
  have h2 := mem_of_mem_dropWhile h
  rw [List.mem_reverse] at h2
  exact mem_of_mem_dropWhile h2

theorem stripParens_of_parenFree {l : List Char}
    (h : ∀ c ∈ l, isParen c = false) : stripParens l = l := by
  unfold stripParens
  rw [dropWhile_of_forall_neg h,
    dropWhile_of_forall_neg (fun c hc => h c (List.mem_reverse.mp hc)),
    List.reverse_reverse]

theorem filter_dropWhile_of_imp {p q : Char → Bool}
    (hpq : ∀ c, q c = true → p c = false) :
    ∀ l : List Char, (l.dropWhile q).filter p = l.filter p := by
  intro l
  induction l with
  | nil => rfl
  | cons a l ih =>
    rw [List.dropWhile_cons]
    by_cases h : q a = true
    · rw [if_pos h, ih]
      simp [List.filter_cons, hpq a h]
    · rw [if_neg h]

theorem isWs_keepNum {c : Char} (h : isWs c = true) : keepNum c = false := by
  simp only [isWs, Bool.or_eq_true, decide_eq_true_eq] at h
  rcases h with ((((h | h) | h) | h) | h) | h <;> subst h <;> decide

theorem filter_keepNum_stripWs (l : List Char) :
    (stripWs l).filter keepNum = l.filter keepNum := by
  unfold stripWs
  rw [List.filter_reverse, filter_dropWhile_of_imp (fun c h => isWs_keepNum h),
    List.filter_reverse, List.reverse_reverse,
    filter_dropWhile_of_imp (fun c h => isWs_keepNum h)]

theorem numericCore_stripWs (l : List Char) :
    numericCore (stripWs l) = numericCore l := by
  unfold numericCore
  rw [filter_keepNum_stripWs]

theorem collapseAux_cons_nonWs {c : Char} (h : isWs c = false) (b : Bool)
    (l : List Char) : collapseAux b (c :: l) = c :: collapseAux false l := by
  simp [collapseAux, h]

theorem collapseAux_append_nonWs {c : Char} (h : isWs c = false) :
    ∀ (l : List Char) (b : Bool),
      collapseAux b (l ++ [c]) = collapseAux b l ++ [c] := by
  intro l
  induction l with
  | nil => intro b; simp [collapseAux, h]
  | cons a l ih =>
    intro b
    simp only [List.cons_append, collapseAux]
    split_ifs <;> simp [ih]

theorem mem_collapseAux {c : Char} : ∀ {l : List Char} {b : Bool},
    c ∈ collapseAux b l → c = ' ' ∨ c ∈ l := by
  intro l
  induction l with
  | nil => intro b h; simp [collapseAux] at h
  | cons a l ih =>
    intro b h
    unfold collapseAux at h
    split_ifs at h
    · rcases ih h with h' | h'
      · exact Or.inl h'
      · exact Or.inr (List.mem_cons_of_mem a h')
    · rcases List.mem_cons.mp h with h' | h'
      · exact Or.inl h'
      · rcases ih h' with h'' | h''
        · exact Or.inl h''
        · exact Or.inr (List.mem_cons_of_mem a h'')
    · rcases List.mem_cons.mp h with h' | h'
      · exact Or.inr (h' ▸ List.mem_cons_self a l)
      · rcases ih h' with h'' | h''
        · exact Or.inl h''
        · exact Or.inr (List.mem_cons_of_mem a h'')

theorem isParen_replaceSp_imp {d : Char} (h : isParen (replaceSp d) = true) :
    isParen d = true := by
  unfold replaceSp at h
  split_ifs at h
  · exact absurd h (by decide)
  · exact absurd h (by decide)
  · exact h

theorem stripWs_parenWrap (u : List Char) :
    stripWs ('(' :: u ++ [')']) = '(' :: u ++ [')'] := by
  unfold stripWs
  rw [List.cons_append, List.dropWhile_cons, if_neg (by decide),
    List.reverse_cons, List.reverse_append, List.reverse_singleton,
    List.singleton_append, List.cons_append, List.dropWhile_cons,
    if_neg (by decide)]
  simp

theorem stripParens_wrap (u : List Char) (hu : ∀ c ∈ u, isParen c = false) :
    stripParens ('(' :: u ++ [')']) = u := by
  unfold stripParens
  rw [List.cons_append, List.dropWhile_cons, if_pos (by decide)]
  cases u with
  | nil => rfl
  | cons a u' =>
    have h2 : ∀ c ∈ u'.reverse ++ [a], isParen c = false := by
      intro c hc
      rcases List.mem_append.mp hc with h | h
      · exact hu c (List.mem_cons_of_mem a (List.mem_reverse.mp h))
      · rw [List.mem_singleton.mp h]
        exact hu a (List.mem_cons_self a u')
    rw [List.cons_append, List.dropWhile_cons,
      if_neg (by simp [hu a (List.mem_cons_self a u')]),
      List.reverse_cons, List.reverse_append, List.reverse_singleton,
      List.singleton_append, List.cons_append, List.dropWhile_cons,
      if_pos (by decide), dropWhile_of_forall_neg h2]
    simp

theorem normalizeChars_parenWrap (tl : List Char) :
    normalizeChars ('(' :: tl ++ [')']) =
      '(' :: collapseWs (tl.map replaceSp) ++ [')'] := by
  unfold normalizeChars collapseWs
  rw [List.cons_append, List.map_cons, List.map_append, List.map_singleton,
    show replaceSp '(' = '(' from rfl, show replaceSp ')' = ')' from rfl,
    collapseAux_cons_nonWs (by decide),
    collapseAux_append_nonWs (by decide), ← List.cons_append,
    stripWs_parenWrap, List.cons_append]

/-- The parenthesis-negation property of `clean_numeric`: wrapping a
paren-free cell in parentheses negates the parsed value, and yields null
exactly when the unwrapped cell yields null. -/
theorem clean_numeric_paren (t : String)
    (ht : ∀ c ∈ t.data, isParen c = false) :
    clean_numeric ("(" ++ t ++ ")") = (clean_numeric t).map Neg.neg := by
  have hdata : ("(" ++ t ++ ")").data = '(' :: t.data ++ [')'] := by
    rw [String.data_append, String.data_append]
    rfl
  obtain ⟨u, hu⟩ : ∃ u, u = collapseWs (t.data.map replaceSp) := ⟨_, rfl⟩
  have hn0 : normalizeChars ("(" ++ t ++ ")").data = '(' :: u ++ [')'] := by
    rw [hdata, normalizeChars_parenWrap, hu]
  have hnt : normalizeChars t.data = stripWs u := by
    unfold normalizeChars
    rw [← hu]
  have hufree : ∀ c ∈ u, isParen c = false := by
    intro c hc
    rw [hu] at hc
    rcases mem_collapseAux hc with h | h
    · subst h; rfl
    · obtain ⟨d, hd, rfl⟩ := List.mem_map.mp h
      by_cases hp : isParen (replaceSp d) = true
      · exact absurd (ht d hd) (by simp [isParen_replaceSp_imp hp])
      · simpa using hp
  have hswfree : ∀ c ∈ stripWs u, isParen c = false :=
    fun c hc => hufree c (mem_of_mem_stripWs hc)
  have hnegL : ((('(' :: u ++ [')']).head? == some '(') &&
      (('(' :: u ++ [')']).getLast? == some ')')) = true := by
    have hlast : ('(' :: u ++ [')']).getLast? = some ')' :=
      List.getLast?_concat _
    rw [hlast, List.cons_append]
    rfl
  have hnegR : (((stripWs u).head? == some '(') &&
      ((stripWs u).getLast? == some ')')) = false := by
    cases hsw : stripWs u with
    | nil => rfl
    | cons a l =>
      have ha : isParen a = false :=
        hswfree a (by rw [hsw]; exact List.mem_cons_self a l)
      have hane : (a == '(') = false := by
        cases hb : a == '('
        · rfl
        · exfalso
          rw [eq_of_beq hb] at ha
          exact absurd ha (by decide)
      simp [hane]
  unfold clean_numeric
  rw [hn0, hnt]
  rw [if_neg (by
    rintro (h | h | h | h) <;>
      (have h2 := congrArg List.getLast? h
       rw [List.getLast?_concat] at h2
       exact absurd h2 (by decide)))]
  rw [stripParens_wrap u hufree]
  by_cases hg : stripWs u = [] ∨ stripWs u = ['-'] ∨ stripWs u = ['–'] ∨
      stripWs u = ['—']
  · rw [if_pos hg]
    have hcore : numericCore u = none := by
      rw [← numericCore_stripWs]
      rcases hg with h | h | h | h <;> rw [h] <;> rfl
    rw [hcore]
    rfl
  · rw [if_neg hg, stripParens_of_parenFree hswfree, numericCore_stripWs]
    rcases hcore : numericCore u with - | v
    · simp
    · dsimp only
      rw [hnegL, hnegR]
      simp

/-! ### Claim theorems

The concrete evaluations below are settled by `decide`; the arithmetic of
`ℚ` must be unsealed for kernel reduction (this does not change what is
proved, only definitional transparency during elaboration). -/

unseal Rat.mul Rat.inv Rat.add Rat.sub

/-- Claim C1, counterexample: upserting a fact whose `fiscal_year` and
`section` are NULL twice duplicates the row instead of replacing it —
SQLite unique indexes treat NULLs as pairwise distinct, so the
`INSERT OR REPLACE` never conflicts on such a fact. -/
theorem C1_counterexample :
    upsert (upsert [] c1nullFact) c1nullFact ≠ upsert [] c1nullFact := by
  decide

/-- Claim C1 (amended): upserting a fact is idempotent whenever its
`fiscal_year` and `section` are both non-NULL: the second upsert deletes
the copy left by the first and re-appends it, leaving the relation
unchanged. -/
theorem C1_upsert_idempotent (s : List Fact) (f : Fact)
    (h1 : f.fiscal_year ≠ none) (h2 : f.section_label ≠ none) :
    upsert (upsert s f) f = upsert s f := by
  obtain ⟨y, hy⟩ := Option.ne_none_iff_exists'.mp h1
  obtain ⟨sec, hsec⟩ := Option.ne_none_iff_exists'.mp h2
  have hcf : factKeyConflict f f = true := by
    simp [factKeyConflict, optKeyEq, hy, hsec]
  simp [upsert, List.filter_append, hcf, List.filter_filter]

/-- Witness for the amended C1 at a concrete keyed fact. -/
theorem C1_upsert_idempotent_witness :
    c1keyedFact.fiscal_year ≠ none ∧ c1keyedFact.section_label ≠ none ∧
    upsert (upsert [] c1keyedFact) c1keyedFact = upsert [] c1keyedFact :=
  ⟨by decide, by decide,
   C1_upsert_idempotent [] c1keyedFact (by decide) (by decide)⟩

/-- Claim C2, counterexample: on the §8 end-to-end grid the engine emits
four facts, not six, and no emitted fact has value 1,200,000,000 (the
page-inferred ×1m scale is not applied). -/
theorem C2_counterexample :
    ¬ ((parse_table c2grid "Acme" none 3 c2text "camelot_text" none).length = 6
      ∧ (1200000000 : ℚ) ∈
        (parse_table c2grid "Acme" none 3 c2text "camelot_text" none).map
          Fact.value) := by
  decide

/-- Claim C2 (amended): the scenario emits exactly four facts — revenue
and net profit for 2024 and 2023 — with raw (unscaled) values 1200, 1050,
−80 and 95, currency EUR, unit tag "×1m" inherited from the page, but
`scale_applied` 1: the table-local scale default of 1.0 is truthy and
short-circuits the fall-back to the page-level ×1m multiplier. -/
theorem C2_emitted_facts :
    parse_table c2grid "Acme" none 3 c2text "camelot_text" none =
      [⟨"Acme", some 2024, none, "revenue", 1200, some "EUR", some "×1m", 1,
        3, "camelot_text", 1⟩,
       ⟨"Acme", some 2023, none, "revenue", 1050, some "EUR", some "×1m", 1,
        3, "camelot_text", 1⟩,
       ⟨"Acme", some 2024, none, "net profit", -80, some "EUR", some "×1m", 1,
        3, "camelot_text", 1⟩,
       ⟨"Acme", some 2023, none, "net profit", 95, some "EUR", some "×1m", 1,
        3, "camelot_text", 1⟩] := by
  decide

/-- Claim C3: the page text "EUR million" resolves scale ×1m, the grid's
head rows ("Revenue 1,200") resolve no scale — yet the emitted fact
carries `scale_applied` 1 and value 1200: the fall-back
`scale_t or scale_p or 1.0` is dead because `detect_currency_and_scale`
returns the truthy 1.0 instead of `None` when it finds no scale evidence
(currency and unit tag do fall back, as the EUR/"×1m" fields show). -/
theorem C3_scale_fallback_dead :
    (detect_currency_and_scale "EUR million").2.2 = 1000000 ∧
    (detect_currency_and_scale "Revenue 1,200").2.2 = 1 ∧
    parse_table c3grid "Acme" none 1 "EUR million" "camelot_text" none =
      [⟨"Acme", none, none, "revenue", 1200, some "EUR", some "×1m", 1, 1,
        "camelot_text", 1⟩] := by
  decide

/-- Claim C4: a row whose two columns carry the same single year "2024"
yields a year-header map — `find_year_header_map` tests
`len(years) >= 2` (mapped columns), not two *distinct* years as its own
docstring and the claim state. -/
theorem C4_same_year_header :
    find_year_header_map [["2024", "2024"]] = some (0, [(0, 2024), (1, 2024)])
    := by
  decide

/-- Claim C5, counterexample: with `default_year` null and page text
"FY2022" the fallback path emits its fact with `fiscal_year` NULL, not
2022 — `\b(19|20)\d{2}\b` has no word boundary between "FY" and "2022". -/
theorem C5_counterexample :
    (parse_table c5grid "Acme" none 1 "FY2022" "camelot_text" none).map
      Fact.fiscal_year = [none] := by
  decide

/-- Claim C5 (amended): on the fallback path every emitted fact's fiscal
year is the page-supplied default year if present; otherwise the *first*
word-boundary-delimited 4-digit 19xx/20xx match in the page text, and only
if that one match lies within [1995, 2036] (an out-of-range first match is
not skipped — it yields NULL); otherwise NULL. -/
theorem C5_fallback_year (rows : List (List String)) (company : String)
    (dy : Option Nat) (page_no : Nat) (page_text : String) (st : String)
    (hint : Option String) (hh : find_year_header_map rows = none) :
    ∀ f ∈ parse_table rows company dy page_no page_text st hint,
      f.fiscal_year =
        (match dy with
         | some y => some y
         | none =>
           match firstBareYear page_text.data with
           | some y => if MIN_YEAR ≤ y ∧ y ≤ MAX_YEAR then some y else none
           | none => none) := by
  intro f hf
  simp only [parse_table, hh] at hf
  split at hf
  · simp at hf
  · exact (mem_fallbackFacts hf).1

/-- Witness for the amended C5: page text "FY2022", no default year —
the emitted fact's fiscal year is NULL. -/
theorem C5_fallback_year_witness :
    c5wFact ∈ parse_table c5wGrid "Acme" none 1 "FY2022" "camelot_text" none
    ∧ c5wFact.fiscal_year = none := by
  refine ⟨by decide, ?_⟩
  have h := C5_fallback_year c5wGrid "Acme" none 1 "FY2022" "camelot_text"
    none (by decide) c5wFact (by decide)
  simpa using h

/-- Claim C6: `looks_like_year` itself maps "FY 24/25" to 2025, but the
detector never sees that string whole: tokenizing on non-word characters
splits it at "/" into ["FY", "24", "25"], none of which is a year, so a
grid of such cells yields no year-header map at all — the cell's column is
not mapped to 2025 as the claim (and the source's own design notes)
state. -/
theorem C6_fy_tokenization :
    looks_like_year "FY 24/25" = some 2025 ∧
    splitTokens (normalize_text "FY 24/25") = ["FY", "24", "25"] ∧
    ["FY", "24", "25"].map looks_like_year = [none, none, none] ∧
    find_year_header_map [["FY 24/25", "FY 23/24"]] = none := by
  decide

/-- Claim C9: a grid with no year header and numeric density below 0.12
is silently discarded — `parse_table` emits no facts (and, being a total
function into lists, signals no error). -/
theorem C9_density_gate (rows : List (List String)) (company : String)
    (dy : Option Nat) (page_no : Nat) (page_text : String) (st : String)
    (hint : Option String) (h1 : find_year_header_map rows = none)
    (h2 : numeric_density rows < 12 / 100) :
    parse_table rows company dy page_no page_text st hint = [] := by
  simp [parse_table, h1, h2]

/-- Witness for C9 at a concrete digit-free grid. -/
theorem C9_density_gate_witness :
    parse_table [["alpha", "beta"], ["gamma", "delta"]] "Acme" none 1 ""
      "camelot_text" none = [] :=
  C9_density_gate _ "Acme" none 1 "" "camelot_text" none (by decide)
    (by decide)

/-- Claim C10: every fact `parse_table` emits — on either path — carries
confidence exactly 1.0 and a scale multiplier drawn from
{1, 1000, 1000000, 1000000000} (hence strictly positive). -/
theorem C10_confidence_and_scale (rows : List (List String))
    (company : String) (dy : Option Nat) (page_no : Nat) (page_text : String)
    (st : String) (hint : Option String) (f : Fact)
    (hf : f ∈ parse_table rows company dy page_no page_text st hint) :
    f.confidence = 1 ∧
    (f.scale_applied = 1 ∨ f.scale_applied = 1000 ∨
     f.scale_applied = 1000000 ∨ f.scale_applied = 1000000000) := by
  have hsa : scaleOk (pyOrQ (detectUnitScale
      (String.intercalate " "
        ((rows.take 3).map (String.intercalate " " ·))).data).2
      (pyOrQ (detectUnitScale page_text.data).2 1)) :=
    scaleOk_pyOrQ (scaleOk_detectUnitScale _)
      (scaleOk_pyOrQ (scaleOk_detectUnitScale _) (Or.inl rfl))
  simp only [parse_table, detect_currency_and_scale] at hf
  split at hf
  · simp at hf
  · split at hf
    · split at hf
      · obtain ⟨hs, hc⟩ := mem_multiYearFacts hf
        exact ⟨hc, hs ▸ hsa⟩
      · obtain ⟨-, hs, hc⟩ := mem_fallbackFacts hf
        exact ⟨hc, hs ▸ hsa⟩
    · obtain ⟨-, hs, hc⟩ := mem_fallbackFacts hf
      exact ⟨hc, hs ▸ hsa⟩

/-- Claim C7: `parse_numeric` (the source's `clean_numeric`) maps a value
wrapped in parentheses to the negation of the value parsed from the content
with the parentheses stripped, and maps the empty string and a sole
dash/en-dash/em-dash to null: `clean_numeric "(1,234.5)" = -1234.5`,
`clean_numeric "-" = null`, `clean_numeric "" = null`. -/
theorem C7_parse_numeric (t : String) (ht : ∀ c ∈ t.data, isParen c = false) :
    clean_numeric ("(" ++ t ++ ")") = (clean_numeric t).map Neg.neg ∧
    clean_numeric "(1,234.5)" = some (-(2469 / 2)) ∧
    clean_numeric "-" = none ∧
    clean_numeric "" = none ∧
    clean_numeric "–" = none ∧
    clean_numeric "—" = none :=
  ⟨clean_numeric_paren t ht, by decide, by decide, by decide, by decide,
   by decide⟩

/-- Witness for C7 at the paren-free content "95" and at the spec's own
example "(1,234.5)" (whose value −1234.5 is −2469/2). -/
theorem C7_parse_numeric_witness :
    clean_numeric "(95)" = (clean_numeric "95").map Neg.neg ∧
    clean_numeric "(1,234.5)" = some (-(2469 / 2)) :=
  ⟨(C7_parse_numeric "95" (by decide)).1,
   (C7_parse_numeric "" (by decide)).2.1⟩

/-- Claim C8, counterexample: the source's character filter keeps a minus
sign anywhere, not only in the leading position.  On "abc-12" the code
parses −12 (the kept interior minus becomes the sign once the letters are
discarded), while the spec-worded filter (non-leading minus discarded)
would parse 12. -/
theorem C8_counterexample :
    clean_numeric "abc-12" = some (-12) ∧
    clean_numeric_specFilter "abc-12" = some 12 ∧
    clean_numeric "abc-12" ≠ clean_numeric_specFilter "abc-12" := by
  refine ⟨by decide, by decide, by decide⟩

/-- Claim C8 (amended): after parenthesis handling, all characters other
than digits, comma, period and minus sign are discarded before numeric
conversion — but the minus sign is kept wherever it occurs, not only in
the leading position: a kept interior minus either makes the conversion
fail ("1-2" → null) or acts as the sign when everything before it is
discarded ("abc-12" → −12); other characters are indeed dropped
("1x2" → 12). -/
theorem C8_minus_kept :
    (∀ (raw : String) (c : Char),
      c ∈ (stripParens (normalizeChars raw.data)).filter keepNum →
        (c.isDigit = true ∨ c = ',' ∨ c = '.' ∨ c = '-')) ∧
    clean_numeric "1-2" = none ∧
    clean_numeric "abc-12" = some (-12) ∧
    clean_numeric "1x2" = some 12 := by
  refine ⟨?_, by decide, by decide, by decide⟩
  intro raw c hc
  have h := List.of_mem_filter hc
  simp only [keepNum, Bool.or_eq_true, decide_eq_true_eq] at h
  tauto

/-- Witness for the amended C8: the interior minus of "a-b" survives the
filter. -/
theorem C8_minus_kept_witness :
    '-' ∈ (stripParens (normalizeChars "a-b".data)).filter keepNum ∧
    (('-').isDigit = true ∨ '-' = ',' ∨ '-' = '.' ∨ '-' = '-') :=
  ⟨by decide, C8_minus_kept.1 "a-b" '-' (by decide)⟩

/-- Witness for C10 at a concrete fallback-path fact. -/
theorem C10_confidence_and_scale_witness :
    c10fact ∈ parse_table c10grid "Acme" none 7 "" "camelot_text" none ∧
    (c10fact.confidence = 1 ∧
     (c10fact.scale_applied = 1 ∨ c10fact.scale_applied = 1000 ∨
      c10fact.scale_applied = 1000000 ∨ c10fact.scale_applied = 1000000000)) :=
  ⟨by decide,
   C10_confidence_and_scale c10grid "Acme" none 7 "" "camelot_text" none
     c10fact (by decide)⟩

end PdfToFigures
